import Mathlib

/-!
Verification of the hall-booking calendar (App.tsx, types.ts with the
booking modal, and the schedule-table component).

The embedding translates the TypeScript source directly:
  - JavaScript string comparison (code-unit lexicographic order, used on
    time labels such as "09:00") is embedded as an executable comparison
    on character lists (jsStrLt, jsStrLe);
  - String.prototype.trim is embedded as jsTrim;
  - Array.prototype.indexOf (first index, -1 when absent) is jsIndexOf;
  - the React setState discipline of handleSaveBooking (throw before any
    setBookings call leaves the collection untouched) is embedded by
    returning an Except value: an error result carries no new collection.
-/

namespace HallBooking

/-- JS code-unit comparison on the underlying character lists; for the
ASCII labels used by the app this is exactly the JS relational operator
on strings. -/
def jsCharListLt : List Char → List Char → Bool
  | [], [] => false
  | [], _ :: _ => true
  | _ :: _, [] => false
  | a :: as, b :: bs => if a < b then true else if b < a then false else jsCharListLt as bs

/-- JS relational comparison a less-than b on strings. -/
def jsStrLt (a b : String) : Bool := jsCharListLt a.data b.data

/-- JS relational comparison a at-most b on strings (total order, so it
is the negation of the reversed strict comparison). -/
def jsStrLe (a b : String) : Bool := !(jsStrLt b a)

/-- JS String.prototype.trim: strip whitespace from both ends. -/
def jsTrim (s : String) : String :=
  ⟨((s.data.dropWhile Char.isWhitespace).reverse.dropWhile Char.isWhitespace).reverse⟩

/-- JS Array.prototype.indexOf on a list of strings: index of the first
occurrence, or -1 when the element is absent. -/
def jsIndexOf : List String → String → Int
  | [], _ => -1
  | a :: as, x =>
    if a = x then 0
    else
      let r := jsIndexOf as x
      if r = -1 then -1 else r + 1

/-- The Hall enum of types.ts: two halls. -/
inductive Hall where
  | alWaha
  | alDana
deriving DecidableEq

/-- The Booking record of types.ts. -/
structure Booking where
  id : String
  hallId : Hall
  date : String
  time : String
  endTime : String
  department : String
  notes : String
deriving DecidableEq

/-- The data submitted by the modal form: a Booking without id and
hallId (the Omit type of the onSave callback). -/
structure BookingData where
  date : String
  time : String
  endTime : String
  department : String
  notes : String
deriving DecidableEq

/-- Whether the modal was opened for a fresh booking (create, bound to
the currently selected hall) or for an existing one (edit). -/
inductive SaveMode where
  | create (selectedHall : Hall)
  | edit (bookingToEdit : Booking)
deriving DecidableEq

/-- The hall the conflict scan runs against: the edited booking's hall
when editing, the selected hall otherwise (first line of
handleSaveBooking). -/
def currentHallOf : SaveMode → Hall
  | .create selectedHall => selectedHall
  | .edit bookingToEdit => bookingToEdit.hallId

/-- The self-exclusion test of the conflict scan: when editing, a stored
booking with the edited booking's id is skipped. -/
def excludedSelf : SaveMode → Booking → Bool
  | .create _, _ => false
  | .edit bookingToEdit, b => b.id == bookingToEdit.id

/-- One step of the conflict scan of handleSaveBooking: same hall and
date, and time-interval overlap (StartA less than EndB and EndA greater
than StartB, on JS string order of the labels). -/
def overlapsBooking (currentHall : Hall) (data : BookingData) (b : Booking) : Bool :=
  if b.hallId = currentHall ∧ b.date = data.date then
    jsStrLt data.time b.endTime && jsStrLt b.time data.endTime
  else false

/-- The hasConflict scan of handleSaveBooking: some stored booking that
is not the edited one overlaps the submitted data. -/
def hasConflict (mode : SaveMode) (data : BookingData) (bookings : List Booking) : Bool :=
  bookings.any fun b =>
    if excludedSelf mode b then false
    else overlapsBooking (currentHallOf mode) data b

/-- The conflict message thrown by handleSaveBooking. -/
def conflictMsg : String := "يوجد تعارض في الحجز. الرجاء اختيار وقت آخر."

/-- The spread update of an edited booking: keep id and hallId of the
stored record, take every data field from the submitted form data. -/
def applyBookingData (bookingToEdit : Booking) (data : BookingData) : Booking :=
  { id := bookingToEdit.id
    hallId := bookingToEdit.hallId
    date := data.date
    time := data.time
    endTime := data.endTime
    department := data.department
    notes := data.notes }

/-- A freshly created booking: the submitted data fields, a timestamp
string as id (new Date toISOString in the source, passed here as the
explicit clock value), and the selected hall. -/
def newBookingOf (data : BookingData) (nowIso : String) (selectedHall : Hall) : Booking :=
  { id := nowIso
    hallId := selectedHall
    date := data.date
    time := data.time
    endTime := data.endTime
    department := data.department
    notes := data.notes }

/-- handleSaveBooking of App.tsx: throw the conflict message on overlap
(the collection is not touched), otherwise map-replace the edited record
or append a new one. -/
def handleSaveBooking (mode : SaveMode) (data : BookingData) (nowIso : String)
    (bookings : List Booking) : Except String (List Booking) :=
  if hasConflict mode data bookings then .error conflictMsg
  else
    match mode with
    | .edit bookingToEdit =>
      .ok (bookings.map fun b =>
        if b.id = bookingToEdit.id then applyBookingData bookingToEdit data else b)
    | .create selectedHall =>
      .ok (bookings ++ [newBookingOf data nowIso selectedHall])

/-- The store state after a save attempt together with the displayed
error: a thrown error is caught by the modal and the collection is left
exactly as it was. -/
def attemptSave (mode : SaveMode) (data : BookingData) (nowIso : String)
    (bookings : List Booking) : List Booking × Option String :=
  match handleSaveBooking mode data nowIso bookings with
  | .ok updated => (updated, none)
  | .error e => (bookings, some e)

/-- handleDeleteBooking of App.tsx: drop the record with the edited
booking's id. -/
def handleDeleteBooking (bookingToEditId : String) (bookings : List Booking) : List Booking :=
  bookings.filter fun b => b.id != bookingToEditId

/-- Validation message for a blank department name. -/
def deptRequiredMsg : String := "يرجى إدخال اسم الإدارة الطالبة."

/-- Validation message for a missing end time. -/
def endTimeRequiredMsg : String := "يرجى تحديد وقت انتهاء الحجز."

/-- Validation message for an end time not after the start time. -/
def endTimeOrderMsg : String := "وقت الانتهاء يجب أن يكون بعد وقت البدء."

/-- handleSave of the booking modal: the three validations in source
order, then the call into handleSaveBooking; every thrown message is
caught and displayed, leaving the store as it was. -/
def modalHandleSave (department endTime notes initDate initTime : String)
    (mode : SaveMode) (nowIso : String) (bookings : List Booking) :
    List Booking × Option String :=
  if jsTrim department = "" then (bookings, some deptRequiredMsg)
  else if endTime = "" then (bookings, some endTimeRequiredMsg)
  else if jsStrLe endTime initTime then (bookings, some endTimeOrderMsg)
  else
    attemptSave mode
      { date := initDate, time := initTime, endTime := endTime
        department := department, notes := notes }
      nowIso bookings

/-- The fixed chronological slot sequence of App.tsx. -/
def timeSlots : List String :=
  ["07:30", "08:00", "09:00", "10:00", "11:00", "12:00",
   "13:00", "14:00", "15:00", "16:00", "17:00", "18:00"]

/-- One grid cell emitted by the schedule table for one day: either an
occupied cell carrying the booking id, its department label and its
column span, or a single-column empty cell carrying the slot label it
offers for a new booking. -/
inductive Cell where
  | occupied (id department : String) (span : Nat)
  | empty (slot : String)
deriving DecidableEq

/-- Number of slot columns a cell covers. -/
def cellWidth : Cell → Nat
  | .occupied _ _ span => span
  | .empty _ => 1

/-- Total number of slot columns covered by a cell sequence. -/
def widthSum (cells : List Cell) : Nat := (cells.map cellWidth).sum

/-- The per-day cell loop of the schedule table, from column i on. The
loop advances by a variable step, so the recursion carries an explicit
fuel bound; the driver layoutDay supplies fuel covering every possible
iteration count, making the function equal to the source loop. At each
column: find the first booking starting at the column's slot label; if
its end index (JS indexOf over the full slot list) exceeds the current
column, emit an occupied cell of that span and jump past it, otherwise
emit an empty cell (the invalid-booking fallback of the component) and
advance one column. -/
def layoutAux (ts : List String) (dayBookings : List Booking) : Nat → Nat → List Cell
  | 0, _ => []
  | fuel + 1, i =>
    if i < ts.dropLast.length then
      let time := ts.getD i ""
      match dayBookings.find? (fun b => b.time == time) with
      | some bk =>
        let eIdx := jsIndexOf ts bk.endTime
        if (i : Int) < eIdx then
          let span := (eIdx - (i : Int)).toNat
          Cell.occupied bk.id bk.department span :: layoutAux ts dayBookings fuel (i + span)
        else
          Cell.empty time :: layoutAux ts dayBookings fuel (i + 1)
      | none => Cell.empty time :: layoutAux ts dayBookings fuel (i + 1)
    else []

/-- The cells the schedule table renders for one day: the loop runs over
the displayed columns (all slot labels but the final boundary). -/
def layoutDay (ts : List String) (dayBookings : List Booking) : List Cell :=
  layoutAux ts dayBookings ts.dropLast.length 0

/-- A spreadsheet merge region of the export: one row, a first and a
last absolute sheet column. -/
structure MergeRegion where
  r : Nat
  cStart : Nat
  cEnd : Nat
deriving DecidableEq

/-- The per-day data-cell loop of handleExportToExcel, from column i on,
with the same explicit fuel bound as layoutAux. Cell values are the
entries pushed between the date column and the notes column: the
department for a booking start, the empty string for a free column, none
for the null placeholders inside a merged span. The span uses JS indexOf
of both the booking's start and end labels, defaulting to 1 when the end
index is not greater; a merge region over absolute sheet columns 3 + i
through 3 + i + span - 1 is recorded exactly when the span exceeds 1. -/
def exportDayAux (ts : List String) (dayBookings : List Booking) (rowIndex : Nat) :
    Nat → Nat → List (Option String) × List MergeRegion
  | 0, _ => ([], [])
  | fuel + 1, i =>
    if i < ts.dropLast.length then
      let time := ts.getD i ""
      match dayBookings.find? (fun b => b.time == time) with
      | some bk =>
        let sIdx := jsIndexOf ts bk.time
        let eIdx := jsIndexOf ts bk.endTime
        let span := if sIdx < eIdx then (eIdx - sIdx).toNat else 1
        let rest := exportDayAux ts dayBookings rowIndex fuel (i + span)
        (some bk.department :: (List.replicate (span - 1) none ++ rest.1),
         (if 1 < span then [⟨rowIndex, 3 + i, 3 + i + span - 1⟩] else []) ++ rest.2)
      | none =>
        let rest := exportDayAux ts dayBookings rowIndex fuel (i + 1)
        (some "" :: rest.1, rest.2)
    else ([], [])

/-- The data cells and merge regions the export emits for one day. -/
def exportDayRow (ts : List String) (dayBookings : List Booking) (rowIndex : Nat) :
    List (Option String) × List MergeRegion :=
  exportDayAux ts dayBookings rowIndex ts.dropLast.length 0

/-- Modelled from the spec, for the refinement claim about the export:
the cell values the spec prescribes for a laid-out day, namely the
department at a booking start, empty placeholders filling the interior
of a merged span, and the empty string on a free column. -/
def valuesOfLayout : List Cell → List (Option String)
  | [] => []
  | .occupied _ department span :: rest =>
    some department :: (List.replicate (span - 1) none ++ valuesOfLayout rest)
  | .empty _ :: rest => some "" :: valuesOfLayout rest

/-- Modelled from the spec, for the refinement claim about the export:
the merge regions the spec prescribes for a laid-out day starting at
display column c, namely one region per occupied cell of span above 1,
covering exactly that cell's columns (offset by the three leading sheet
columns). -/
def mergesOfLayout (rowIndex : Nat) : Nat → List Cell → List MergeRegion
  | _, [] => []
  | c, .occupied _ _ span :: rest =>
    (if 1 < span then [⟨rowIndex, 3 + c, 3 + c + span - 1⟩] else []) ++
      mergesOfLayout rowIndex (c + span) rest
  | c, .empty _ :: rest => mergesOfLayout rowIndex (c + 1) rest

/-- One entry of the fixed booking color palette of the schedule table. -/
structure BookingColor where
  bg : String
  hover : String
  text : String
deriving DecidableEq

/-- The fixed ten-entry palette bookingColors of the schedule table. -/
def bookingColors : List BookingColor :=
  [⟨"bg-blue-200", "hover:bg-blue-300", "text-blue-800"⟩,
   ⟨"bg-teal-200", "hover:bg-teal-300", "text-teal-800"⟩,
   ⟨"bg-green-200", "hover:bg-green-300", "text-green-800"⟩,
   ⟨"bg-indigo-200", "hover:bg-indigo-300", "text-indigo-800"⟩,
   ⟨"bg-purple-200", "hover:bg-purple-300", "text-purple-800"⟩,
   ⟨"bg-pink-200", "hover:bg-pink-300", "text-pink-800"⟩,
   ⟨"bg-sky-200", "hover:bg-sky-300", "text-sky-800"⟩,
   ⟨"bg-cyan-200", "hover:bg-cyan-300", "text-cyan-800"⟩,
   ⟨"bg-emerald-200", "hover:bg-emerald-300", "text-emerald-800"⟩,
   ⟨"bg-rose-200", "hover:bg-rose-300", "text-rose-800"⟩]

/-- The two refs backing the memoized color assignment: the id-to-color
map and the last palette index handed out (initially -1). -/
structure ColorState where
  colorMap : List (String × BookingColor)
  lastColorIndex : Int
deriving DecidableEq

/-- The refs at component start: empty map, last index -1. -/
def initialColorState : ColorState := ⟨[], -1⟩

/-- getBookingColor of the schedule table: a memoized lookup that, on a
first encounter, advances the last index cyclically through the palette
and records the id's color. -/
def getBookingColor (s : ColorState) (bookingId : String) : BookingColor × ColorState :=
  match s.colorMap.lookup bookingId with
  | some c => (c, s)
  | none =>
    let idx := (s.lastColorIndex + 1) % (bookingColors.length : Int)
    let c := bookingColors.getD idx.toNat ⟨"", "", ""⟩
    (c, { colorMap := (bookingId, c) :: s.colorMap, lastColorIndex := idx })

/-- The weekend test of the schedule table row: getDay equal to 0
(Sunday) or 6 (Saturday). -/
def scheduleTableIsWeekend (getDay : Nat) : Bool :=
  getDay == 0 || getDay == 6

/-- The weekend test of the export's data-row styling loop: getDay equal
to 0 (Sunday) or 6 (Saturday). -/
def exportIsWeekend (getDay : Nat) : Bool :=
  getDay == 0 || getDay == 6

lemma jsIndexOf_lt_length (l : List String) (x : String) :
    jsIndexOf l x < (l.length : Int) := by
  induction l with
  | nil => simp [jsIndexOf]
  | cons a as ih =>
    by_cases h : a = x
    · simp only [jsIndexOf, if_pos h, List.length_cons]
      omega
    · simp only [jsIndexOf, if_neg h, List.length_cons]
      split
      · omega
      · omega

lemma jsIndexOf_getElem_of_nodup (l : List String) (hn : l.Nodup) (i : Nat)
    (hi : i < l.length) : jsIndexOf l l[i] = i := by
  induction l generalizing i with
  | nil => simp at hi
  | cons a as ih =>
    cases i with
    | zero => simp [jsIndexOf]
    | succ j =>
      have hj : j < as.length := by simpa using hi
      have ha : a ≠ as[j] := by
        intro h
        exact (List.nodup_cons.mp hn).1 (h ▸ List.getElem_mem hj)
      have hrec := ih (List.nodup_cons.mp hn).2 j hj
      simp only [jsIndexOf, List.getElem_cons_succ, if_neg ha, hrec]
      have hne : (j : Int) ≠ -1 := by omega
      simp only [if_neg hne]
      push_cast
      ring

/-- Claim C1: for an existing booking A on the same hall and date whose
interval overlaps the submitted data (A.start before B.end and A.end
after B.start) and which is not the booking being edited, the save
attempt (create or edit) is rejected with the conflict error, and the
booking collection after the rejected save is exactly the collection
before it. -/
theorem conflict_rejects_and_preserves_store (mode : SaveMode) (data : BookingData)
    (nowIso : String) (bookings : List Booking) (A : Booking)
    (hmem : A ∈ bookings)
    (hself : excludedSelf mode A = false)
    (hhall : A.hallId = currentHallOf mode)
    (hdate : A.date = data.date)
    (hov1 : jsStrLt data.time A.endTime = true)
    (hov2 : jsStrLt A.time data.endTime = true) :
    attemptSave mode data nowIso bookings = (bookings, some conflictMsg) := by
  have hc : hasConflict mode data bookings = true := by
    unfold hasConflict
    rw [List.any_eq_true]
    refine ⟨A, hmem, ?_⟩
    rw [if_neg (by simp [hself])]
    unfold overlapsBooking
    rw [if_pos ⟨hhall, hdate⟩, hov1, hov2]
    rfl
  unfold attemptSave handleSaveBooking
  rw [hc]
  rfl

/-- Witness for C1: the second scenario of the spec, a fresh booking
from 10:00 to 12:00 against a stored 09:00 to 11:00 booking of the same
hall and date, is rejected and the store keeps exactly its one record. -/
theorem conflict_rejects_and_preserves_store_witness :
    attemptSave (.create .alWaha) ⟨"2026-10-10", "10:00", "12:00", "IT", ""⟩ "T0"
        [⟨"1", .alWaha, "2026-10-10", "09:00", "11:00", "HR", "n"⟩] =
      ([⟨"1", .alWaha, "2026-10-10", "09:00", "11:00", "HR", "n"⟩], some conflictMsg) :=
  conflict_rejects_and_preserves_store (.create .alWaha)
    ⟨"2026-10-10", "10:00", "12:00", "IT", ""⟩ "T0"
    [⟨"1", .alWaha, "2026-10-10", "09:00", "11:00", "HR", "n"⟩]
    ⟨"1", .alWaha, "2026-10-10", "09:00", "11:00", "HR", "n"⟩
    (by decide) (by decide) (by decide) (by decide) (by decide) (by decide)

/-- Claim C5: editing a booking whose new interval overlaps no other
stored booking of the same hall and date (in particular a no-change
save, where the new interval overlaps only the booking's own previous
interval) succeeds: the conflict scan skips the booking being edited, so
the save returns the updated collection. -/
theorem edit_self_overlap_succeeds (e : Booking) (data : BookingData) (nowIso : String)
    (bookings : List Booking)
    (hothers : ∀ b ∈ bookings, b.id ≠ e.id →
      ¬(b.hallId = e.hallId ∧ b.date = data.date ∧
        jsStrLt data.time b.endTime = true ∧ jsStrLt b.time data.endTime = true)) :
    hasConflict (.edit e) data bookings = false ∧
    handleSaveBooking (.edit e) data nowIso bookings =
      .ok (bookings.map fun b => if b.id = e.id then applyBookingData e data else b) := by
  have hc : hasConflict (.edit e) data bookings = false := by
    unfold hasConflict
    rw [List.any_eq_false]
    intro b hb
    by_cases hid : b.id = e.id
    · rw [if_pos (by simp [excludedSelf, hid])]
      simp
    · rw [if_neg (by simp [excludedSelf, hid])]
      unfold overlapsBooking currentHallOf
      split
      · rename_i hcond
        simp only [Bool.and_eq_true]
        intro hxy
        exact hothers b hb hid ⟨hcond.1, hcond.2, hxy.1, hxy.2⟩
      · simp
  refine ⟨hc, ?_⟩
  unfold handleSaveBooking
  rw [hc]
  rfl

/-- Witness for C5: saving a booking's own fields back unchanged over a
store containing only that booking succeeds. -/
theorem edit_self_overlap_succeeds_witness :
    hasConflict (.edit ⟨"1", .alWaha, "2026-10-10", "09:00", "11:00", "HR", "n"⟩)
        ⟨"2026-10-10", "09:00", "11:00", "HR", "n"⟩
        [⟨"1", .alWaha, "2026-10-10", "09:00", "11:00", "HR", "n"⟩] = false ∧
    handleSaveBooking (.edit ⟨"1", .alWaha, "2026-10-10", "09:00", "11:00", "HR", "n"⟩)
        ⟨"2026-10-10", "09:00", "11:00", "HR", "n"⟩ "T0"
        [⟨"1", .alWaha, "2026-10-10", "09:00", "11:00", "HR", "n"⟩] =
      .ok ([⟨"1", .alWaha, "2026-10-10", "09:00", "11:00", "HR", "n"⟩].map fun b =>
        if b.id = "1" then
          applyBookingData ⟨"1", .alWaha, "2026-10-10", "09:00", "11:00", "HR", "n"⟩
            ⟨"2026-10-10", "09:00", "11:00", "HR", "n"⟩
        else b) :=
  edit_self_overlap_succeeds ⟨"1", .alWaha, "2026-10-10", "09:00", "11:00", "HR", "n"⟩
    ⟨"2026-10-10", "09:00", "11:00", "HR", "n"⟩ "T0"
    [⟨"1", .alWaha, "2026-10-10", "09:00", "11:00", "HR", "n"⟩]
    (by decide)

/-- Claim C7: a successful update replaces exactly the submitted data
fields of the edited record while preserving its id and hall, and maps
every other stored booking to itself. -/
theorem update_preserves_id_hall_and_frame (e : Booking) (data : BookingData)
    (nowIso : String) (bookings updated : List Booking)
    (hok : handleSaveBooking (.edit e) data nowIso bookings = .ok updated) :
    updated = bookings.map (fun b => if b.id = e.id then applyBookingData e data else b) ∧
    (applyBookingData e data).id = e.id ∧
    (applyBookingData e data).hallId = e.hallId ∧
    (applyBookingData e data).date = data.date ∧
    (applyBookingData e data).time = data.time ∧
    (applyBookingData e data).endTime = data.endTime ∧
    (applyBookingData e data).department = data.department ∧
    (applyBookingData e data).notes = data.notes ∧
    ∀ b ∈ bookings, b.id ≠ e.id → b ∈ updated := by
  unfold handleSaveBooking at hok
  by_cases hc : hasConflict (.edit e) data bookings = true
  · rw [if_pos hc] at hok
    exact absurd hok (by simp)
  · rw [if_neg hc] at hok
    have heq : updated =
        bookings.map (fun b => if b.id = e.id then applyBookingData e data else b) := by
      have := hok
      simp only [Except.ok.injEq] at this
      exact this.symm
    refine ⟨heq, rfl, rfl, rfl, rfl, rfl, rfl, rfl, ?_⟩
    intro b hb hid
    rw [heq]
    have : (if b.id = e.id then applyBookingData e data else b) = b := if_neg hid
    exact this ▸ List.mem_map_of_mem _ hb

/-- Witness for C7: a concrete successful edit of a one-record store. -/
theorem update_preserves_id_hall_and_frame_witness :
    [applyBookingData ⟨"1", .alWaha, "2026-10-10", "09:00", "11:00", "HR", "n"⟩
        ⟨"2026-10-10", "10:00", "12:00", "IT", "x"⟩] =
      [⟨"1", .alWaha, "2026-10-10", "09:00", "11:00", "HR", "n"⟩].map (fun b =>
        if b.id = "1" then
          applyBookingData ⟨"1", .alWaha, "2026-10-10", "09:00", "11:00", "HR", "n"⟩
            ⟨"2026-10-10", "10:00", "12:00", "IT", "x"⟩
        else b) :=
  (update_preserves_id_hall_and_frame
    ⟨"1", .alWaha, "2026-10-10", "09:00", "11:00", "HR", "n"⟩
    ⟨"2026-10-10", "10:00", "12:00", "IT", "x"⟩ "T0"
    [⟨"1", .alWaha, "2026-10-10", "09:00", "11:00", "HR", "n"⟩]
    [applyBookingData ⟨"1", .alWaha, "2026-10-10", "09:00", "11:00", "HR", "n"⟩
        ⟨"2026-10-10", "10:00", "12:00", "IT", "x"⟩]
    (by rfl)).1

/-- Claim C8: a save attempt with a blank department, a missing end
time, or an end time not strictly after the start time is stopped by one
of the three form validations: the displayed message is a validation
message, the store handler is never reached (the outcome is the same for
every mode, clock value and store), and the booking collection is
returned unchanged. -/
theorem validation_blocks_save (department endTime notes initDate initTime : String)
    (h : jsTrim department = "" ∨ endTime = "" ∨ jsStrLe endTime initTime = true) :
    ∃ m, m ∈ [deptRequiredMsg, endTimeRequiredMsg, endTimeOrderMsg] ∧
      ∀ mode nowIso bookings,
        modalHandleSave department endTime notes initDate initTime mode nowIso bookings =
          (bookings, some m) := by
  by_cases h1 : jsTrim department = ""
  · exact ⟨deptRequiredMsg, by simp, fun mode nowIso bookings => by
      unfold modalHandleSave
      rw [if_pos h1]⟩
  · by_cases h2 : endTime = ""
    · exact ⟨endTimeRequiredMsg, by simp, fun mode nowIso bookings => by
        unfold modalHandleSave
        rw [if_neg h1, if_pos h2]⟩
    · have h3 : jsStrLe endTime initTime = true := by
        rcases h with h | h | h
        · exact absurd h h1
        · exact absurd h h2
        · exact h
      exact ⟨endTimeOrderMsg, by simp, fun mode nowIso bookings => by
        unfold modalHandleSave
        rw [if_neg h1, if_neg h2, if_pos h3]⟩

/-- Witness for C8: a blank department is stopped by validation for any
mode, clock and store. -/
theorem validation_blocks_save_witness :
    ∃ m, m ∈ [deptRequiredMsg, endTimeRequiredMsg, endTimeOrderMsg] ∧
      ∀ mode nowIso bookings,
        modalHandleSave "  " "10:00" "" "2026-10-10" "09:00" mode nowIso bookings =
          (bookings, some m) :=
  validation_blocks_save "  " "10:00" "" "2026-10-10" "09:00" (Or.inl (by decide))

/-- Claim C10: the on-screen table and the export classify a day as a
weekend by the same test, true exactly when the day-of-week value is 0
(Sunday) or 6 (Saturday), so the two views agree on the weekend set. -/
theorem weekend_tests_agree (getDay : Nat) :
    scheduleTableIsWeekend getDay = exportIsWeekend getDay ∧
    (scheduleTableIsWeekend getDay = true ↔ (getDay = 0 ∨ getDay = 6)) := by
  refine ⟨rfl, ?_⟩
  unfold scheduleTableIsWeekend
  simp

lemma getBookingColor_of_lookup_some (s : ColorState) (id : String) (c : BookingColor)
    (h : s.colorMap.lookup id = some c) : getBookingColor s id = (c, s) := by
  unfold getBookingColor
  rw [h]

lemma getBookingColor_of_lookup_none (s : ColorState) (id : String)
    (h : s.colorMap.lookup id = none) :
    getBookingColor s id =
      (bookingColors.getD
        ((s.lastColorIndex + 1) % (bookingColors.length : Int)).toNat ⟨"", "", ""⟩,
       ⟨(id,
          bookingColors.getD
            ((s.lastColorIndex + 1) % (bookingColors.length : Int)).toNat
            ⟨"", "", ""⟩) :: s.colorMap,
        (s.lastColorIndex + 1) % (bookingColors.length : Int)⟩) := by
  unfold getBookingColor
  rw [h]

lemma lookup_cons_self (id : String) (c : BookingColor) (m : List (String × BookingColor)) :
    ((id, c) :: m).lookup id = some c := by
  simp [List.lookup]

lemma lookup_cons_ne (id1 id2 : String) (c : BookingColor)
    (m : List (String × BookingColor)) (hne : id2 ≠ id1) :
    ((id1, c) :: m).lookup id2 = m.lookup id2 := by
  simp only [List.lookup]
  rw [show (id2 == id1) = false from beq_eq_false_iff_ne.mpr hne]

/-- Claim C6: the color assignment is a stable memoized map: asking
again for a booking id returns the same color and leaves the state
unchanged, a first-seen id receives the palette entry one step past the
last handed-out index (modulo the palette length), and a second distinct
first-seen id receives the next cyclically advancing entry. -/
theorem color_assignment_stable_and_cyclic (s : ColorState) (id1 id2 : String) :
    getBookingColor (getBookingColor s id1).2 id1 = getBookingColor s id1 ∧
    (s.colorMap.lookup id1 = none →
      (getBookingColor s id1).1 =
        bookingColors.getD
          ((s.lastColorIndex + 1) % (bookingColors.length : Int)).toNat ⟨"", "", ""⟩) ∧
    (s.colorMap.lookup id1 = none → s.colorMap.lookup id2 = none → id1 ≠ id2 →
      (getBookingColor (getBookingColor s id1).2 id2).1 =
        bookingColors.getD
          (((s.lastColorIndex + 1) % (bookingColors.length : Int) + 1) %
            (bookingColors.length : Int)).toNat ⟨"", "", ""⟩) := by
  cases hl : s.colorMap.lookup id1 with
  | some c =>
    have hfst := getBookingColor_of_lookup_some s id1 c hl
    refine ⟨?_, ?_, ?_⟩
    · rw [hfst]
      exact hfst
    · intro h
      exact Option.noConfusion h
    · intro h
      exact Option.noConfusion h
  | none =>
    have hfst := getBookingColor_of_lookup_none s id1 hl
    refine ⟨?_, fun _ => by rw [hfst], fun _ h2 hne => ?_⟩
    · rw [hfst]
      exact getBookingColor_of_lookup_some _ _ _ (lookup_cons_self _ _ _)
    · rw [hfst]
      have hl2 : (((id1,
          bookingColors.getD
            ((s.lastColorIndex + 1) % (bookingColors.length : Int)).toNat
            ⟨"", "", ""⟩) :: s.colorMap).lookup id2) = none := by
        rw [lookup_cons_ne _ _ _ _ (Ne.symm hne)]
        exact h2
      rw [getBookingColor_of_lookup_none _ _ hl2]

/-- Witness for C6: from the initial state, the first two distinct ids
receive the first and second palette entries. -/
theorem color_assignment_stable_and_cyclic_witness :
    (getBookingColor (getBookingColor initialColorState "a").2 "b").1 =
      bookingColors.getD 1 ⟨"", "", ""⟩ := by
  have h := color_assignment_stable_and_cyclic initialColorState "a" "b"
  have h3 := h.2.2 rfl rfl (by decide)
  have hidx :
      (((initialColorState.lastColorIndex + 1) % (bookingColors.length : Int) + 1) %
        (bookingColors.length : Int)).toNat = 1 := by decide
  rw [h3, hidx]

/-- Claim C9, counterexample: two creations in the same instant (equal
timestamp strings, as produced by the source's toISOString id
generation) both succeed on non-overlapping data, and the resulting
reachable store holds two bookings with the same id, violating
uniqueness. -/
theorem timestamp_ids_collide :
    handleSaveBooking (.create .alWaha) ⟨"2026-10-10", "09:00", "10:00", "HR", ""⟩ "T0" [] =
      .ok [⟨"T0", .alWaha, "2026-10-10", "09:00", "10:00", "HR", ""⟩] ∧
    handleSaveBooking (.create .alWaha) ⟨"2026-10-11", "09:00", "10:00", "IT", ""⟩ "T0"
        [⟨"T0", .alWaha, "2026-10-10", "09:00", "10:00", "HR", ""⟩] =
      .ok [⟨"T0", .alWaha, "2026-10-10", "09:00", "10:00", "HR", ""⟩,
           ⟨"T0", .alWaha, "2026-10-11", "09:00", "10:00", "IT", ""⟩] ∧
    ¬ ([⟨"T0", .alWaha, "2026-10-10", "09:00", "10:00", "HR", ""⟩,
        ⟨"T0", .alWaha, "2026-10-11", "09:00", "10:00", "IT", ""⟩].map
          Booking.id).Nodup :=
  ⟨rfl, rfl, by decide⟩

/-- Claim C9, amended: id uniqueness is preserved by the store
operations only under a freshness assumption on the clock: a creation
whose timestamp string differs from every id currently in the store
keeps the ids free of duplicates, an update never changes the id
sequence, and a deletion keeps the remaining ids free of duplicates;
without that assumption (two creations within the same instant) the
uniqueness invariant fails, as the counterexample shows. -/
theorem ids_unique_under_fresh_clock (bookings : List Booking)
    (hnodup : (bookings.map Booking.id).Nodup) :
    (∀ selectedHall data nowIso updated,
        nowIso ∉ bookings.map Booking.id →
        handleSaveBooking (.create selectedHall) data nowIso bookings = .ok updated →
        (updated.map Booking.id).Nodup) ∧
    (∀ e data nowIso updated,
        handleSaveBooking (.edit e) data nowIso bookings = .ok updated →
        updated.map Booking.id = bookings.map Booking.id) ∧
    (∀ targetId, ((handleDeleteBooking targetId bookings).map Booking.id).Nodup) := by
  refine ⟨?_, ?_, ?_⟩
  · intro selectedHall data nowIso updated hfresh hok
    unfold handleSaveBooking at hok
    by_cases hc : hasConflict (.create selectedHall) data bookings = true
    · rw [if_pos hc] at hok
      exact absurd hok (by simp)
    · rw [if_neg hc] at hok
      have heq : updated = bookings ++ [newBookingOf data nowIso selectedHall] := by
        have := hok
        simp only [Except.ok.injEq] at this
        exact this.symm
      rw [heq]
      rw [List.map_append]
      rw [List.nodup_append]
      refine ⟨hnodup, by simp, ?_⟩
      intro x hx hy
      simp only [List.map_cons, List.map_nil, List.mem_singleton] at hy
      rw [hy] at hx
      exact hfresh hx
  · intro e data nowIso updated hok
    unfold handleSaveBooking at hok
    by_cases hc : hasConflict (.edit e) data bookings = true
    · rw [if_pos hc] at hok
      exact absurd hok (by simp)
    · rw [if_neg hc] at hok
      have heq : updated =
          bookings.map (fun b => if b.id = e.id then applyBookingData e data else b) := by
        have := hok
        simp only [Except.ok.injEq] at this
        exact this.symm
      rw [heq, List.map_map]
      refine List.map_congr_left ?_
      intro b _
      by_cases hid : b.id = e.id
      · simp [hid, applyBookingData]
      · simp [hid]
  · intro targetId
    exact ((List.filter_sublist bookings).map Booking.id).nodup hnodup

lemma widthSum_nil : widthSum [] = 0 := rfl

lemma widthSum_cons (c : Cell) (cells : List Cell) :
    widthSum (c :: cells) = cellWidth c + widthSum cells := by
  simp [widthSum]

lemma find?_time_getElem (ts : List String) (bs : List Booking) (i : Nat) (bk : Booking)
    (hi : i < ts.length)
    (hfind : bs.find? (fun b => b.time == ts.getD i "") = some bk) :
    bk.time = ts[i] := by
  have hbk := List.find?_some hfind
  have : bk.time = ts.getD i "" := by simpa using hbk
  rw [this, List.getD_eq_getElem ts "" hi]

lemma jsIndexOf_time_of_found (ts : List String) (bs : List Booking) (i : Nat) (bk : Booking)
    (hn : ts.Nodup) (hi : i < ts.length)
    (hfind : bs.find? (fun b => b.time == ts.getD i "") = some bk) :
    jsIndexOf ts bk.time = (i : Int) := by
  rw [find?_time_getElem ts bs i bk hi hfind]
  exact jsIndexOf_getElem_of_nodup ts hn i hi

lemma widthSum_layoutAux (ts : List String) (bs : List Booking) :
    ∀ fuel i, ts.dropLast.length - i ≤ fuel →
      widthSum (layoutAux ts bs fuel i) = ts.dropLast.length - i := by
  intro fuel
  induction fuel with
  | zero =>
    intro i h
    simp only [layoutAux, widthSum, List.map_nil, List.sum_nil]
    omega
  | succ fuel ih =>
    intro i h
    by_cases hi : i < ts.dropLast.length
    · simp only [layoutAux, if_pos hi]
      split
      · rename_i bk hfind
        have hub : jsIndexOf ts bk.endTime < (ts.length : Int) :=
          jsIndexOf_lt_length ts bk.endTime
        have hdl : ts.dropLast.length = ts.length - 1 := List.length_dropLast ts
        by_cases hlt : (i : Int) < jsIndexOf ts bk.endTime
        · rw [if_pos hlt]
          rw [widthSum_cons]
          rw [ih (i + (jsIndexOf ts bk.endTime - (i : Int)).toNat) (by omega)]
          simp only [cellWidth]
          omega
        · rw [if_neg hlt]
          rw [widthSum_cons]
          rw [ih (i + 1) (by omega)]
          simp only [cellWidth]
          omega
      · rw [widthSum_cons]
        rw [ih (i + 1) (by omega)]
        simp only [cellWidth]
        omega
    · simp only [layoutAux, if_neg hi, widthSum, List.map_nil, List.sum_nil]
      omega

lemma length_exportDayAux (ts : List String) (bs : List Booking) (r : Nat) (hn : ts.Nodup) :
    ∀ fuel i, ts.dropLast.length - i ≤ fuel →
      (exportDayAux ts bs r fuel i).1.length = ts.dropLast.length - i := by
  intro fuel
  induction fuel with
  | zero =>
    intro i h
    simp only [exportDayAux, List.length_nil]
    omega
  | succ fuel ih =>
    intro i h
    have hdl : ts.dropLast.length = ts.length - 1 := List.length_dropLast ts
    by_cases hi : i < ts.dropLast.length
    · have hil : i < ts.length := by omega
      simp only [exportDayAux, if_pos hi]
      split
      · rename_i bk hfind
        have hsidx : jsIndexOf ts bk.time = (i : Int) :=
          jsIndexOf_time_of_found ts bs i bk hn hil hfind
        rw [hsidx]
        have hub : jsIndexOf ts bk.endTime < (ts.length : Int) :=
          jsIndexOf_lt_length ts bk.endTime
        by_cases hlt : (i : Int) < jsIndexOf ts bk.endTime
        · rw [if_pos hlt]
          simp only [List.length_cons, List.length_append, List.length_replicate]
          rw [ih (i + (jsIndexOf ts bk.endTime - (i : Int)).toNat) (by omega)]
          omega
        · rw [if_neg hlt]
          simp only [List.length_cons, List.length_append, List.length_replicate]
          rw [ih (i + 1) (by omega)]
          omega
      · simp only [List.length_cons]
        rw [ih (i + 1) (by omega)]
        omega
    · simp only [exportDayAux, if_neg hi, List.length_nil]
      omega

lemma layoutAux_succ_some (ts : List String) (bs : List Booking) (fuel i : Nat)
    (bk : Booking) (hi : i < ts.dropLast.length)
    (hfind : bs.find? (fun b => b.time == ts.getD i "") = some bk) :
    layoutAux ts bs (fuel + 1) i =
      if (i : Int) < jsIndexOf ts bk.endTime then
        Cell.occupied bk.id bk.department (jsIndexOf ts bk.endTime - (i : Int)).toNat ::
          layoutAux ts bs fuel (i + (jsIndexOf ts bk.endTime - (i : Int)).toNat)
      else
        Cell.empty (ts.getD i "") :: layoutAux ts bs fuel (i + 1) := by
  simp only [layoutAux, if_pos hi]
  rw [hfind]

lemma layoutAux_succ_none (ts : List String) (bs : List Booking) (fuel i : Nat)
    (hi : i < ts.dropLast.length)
    (hfind : bs.find? (fun b => b.time == ts.getD i "") = none) :
    layoutAux ts bs (fuel + 1) i = Cell.empty (ts.getD i "") :: layoutAux ts bs fuel (i + 1) := by
  simp only [layoutAux, if_pos hi]
  rw [hfind]

lemma layoutAux_stop (ts : List String) (bs : List Booking) (fuel i : Nat)
    (hi : ¬ i < ts.dropLast.length) : layoutAux ts bs fuel i = [] := by
  cases fuel with
  | zero => rfl
  | succ fuel => simp only [layoutAux, if_neg hi]

lemma exportDayAux_succ_some (ts : List String) (bs : List Booking) (r fuel i : Nat)
    (bk : Booking) (hi : i < ts.dropLast.length)
    (hfind : bs.find? (fun b => b.time == ts.getD i "") = some bk) :
    exportDayAux ts bs r (fuel + 1) i =
      (some bk.department ::
        (List.replicate
            ((if jsIndexOf ts bk.time < jsIndexOf ts bk.endTime then
                (jsIndexOf ts bk.endTime - jsIndexOf ts bk.time).toNat
              else 1) - 1) none ++
          (exportDayAux ts bs r fuel
            (i + if jsIndexOf ts bk.time < jsIndexOf ts bk.endTime then
                (jsIndexOf ts bk.endTime - jsIndexOf ts bk.time).toNat
              else 1)).1),
       (if 1 < (if jsIndexOf ts bk.time < jsIndexOf ts bk.endTime then
            (jsIndexOf ts bk.endTime - jsIndexOf ts bk.time).toNat
          else 1) then
          [⟨r, 3 + i,
            3 + i + (if jsIndexOf ts bk.time < jsIndexOf ts bk.endTime then
                (jsIndexOf ts bk.endTime - jsIndexOf ts bk.time).toNat
              else 1) - 1⟩]
        else []) ++
        (exportDayAux ts bs r fuel
          (i + if jsIndexOf ts bk.time < jsIndexOf ts bk.endTime then
              (jsIndexOf ts bk.endTime - jsIndexOf ts bk.time).toNat
            else 1)).2) := by
  simp only [exportDayAux, if_pos hi]
  rw [hfind]

lemma exportDayAux_succ_none (ts : List String) (bs : List Booking) (r fuel i : Nat)
    (hi : i < ts.dropLast.length)
    (hfind : bs.find? (fun b => b.time == ts.getD i "") = none) :
    exportDayAux ts bs r (fuel + 1) i =
      (some "" :: (exportDayAux ts bs r fuel (i + 1)).1,
       (exportDayAux ts bs r fuel (i + 1)).2) := by
  simp only [exportDayAux, if_pos hi]
  rw [hfind]

lemma exportDayAux_stop (ts : List String) (bs : List Booking) (r fuel i : Nat)
    (hi : ¬ i < ts.dropLast.length) : exportDayAux ts bs r fuel i = ([], []) := by
  cases fuel with
  | zero => rfl
  | succ fuel => simp only [exportDayAux, if_neg hi]

/-- Claim C2: over any duplicate-free slot-label sequence of length N,
the widths of the cells the grid lays out for a day sum to exactly N-1,
and the export's data row between the date column and the notes column
likewise holds exactly N-1 entries; the final slot label only bounds the
loop and is never scanned as a starting column. -/
theorem grid_and_export_cover_columns (ts : List String) (bs : List Booking) (r : Nat)
    (hn : ts.Nodup) :
    widthSum (layoutDay ts bs) = ts.length - 1 ∧
    (exportDayRow ts bs r).1.length = ts.length - 1 := by
  have hdl : ts.dropLast.length = ts.length - 1 := List.length_dropLast ts
  have h1 := widthSum_layoutAux ts bs ts.dropLast.length 0 (by omega)
  have h2 := length_exportDayAux ts bs r hn ts.dropLast.length 0 (by omega)
  unfold layoutDay exportDayRow
  rw [h1, h2]
  omega

/-- Witness for C2: the app's twelve slot labels with one stored booking
give eleven columns on both the grid and the export row. -/
theorem grid_and_export_cover_columns_witness :
    widthSum (layoutDay timeSlots
        [(⟨"1", .alWaha, "2026-10-10", "09:00", "11:00", "HR", "n"⟩ : Booking)]) =
      timeSlots.length - 1 ∧
    (exportDayRow timeSlots
        [(⟨"1", .alWaha, "2026-10-10", "09:00", "11:00", "HR", "n"⟩ : Booking)] 4).1.length =
      timeSlots.length - 1 :=
  grid_and_export_cover_columns timeSlots
    [(⟨"1", .alWaha, "2026-10-10", "09:00", "11:00", "HR", "n"⟩ : Booking)] 4 (by decide)

/-- Claim C3, counterexample: a degenerate booking (end time equal to
its start time) is NOT rendered by the on-screen grid as an occupied
cell labeled with the department: the grid emits no occupied cell at all
for a day holding only that booking, while the export does emit the
department as a single-column entry (with no merge region). The claim's
statement that both views label the degenerate booking with the
department is therefore false. -/
theorem degenerate_empty_on_grid_but_dept_on_export :
    ((layoutDay timeSlots
        [(⟨"d1", .alWaha, "2026-10-10", "10:00", "10:00", "Dept", ""⟩ : Booking)]).all
      (fun c => match c with
        | Cell.occupied _ _ _ => false
        | Cell.empty _ => true)) = true ∧
    ((exportDayRow timeSlots
        [(⟨"d1", .alWaha, "2026-10-10", "10:00", "10:00", "Dept", ""⟩ : Booking)] 4).1 =
      [some "", some "", some "", some "Dept", some "", some "", some "",
       some "", some "", some "", some ""]) ∧
    ((exportDayRow timeSlots
        [(⟨"d1", .alWaha, "2026-10-10", "10:00", "10:00", "Dept", ""⟩ : Booking)] 4).2 = []) := by
  refine ⟨?_, ?_, ?_⟩ <;> decide

/-- Claim C3, amended: for a booking found at a scanned column of a
duplicate-free slot sequence, the start index is the column itself; when
the end index strictly exceeds it, both the grid and the export emit an
occupied cell of span equal to end index minus start index; otherwise
the degenerate booking never crashes and never yields a negative span,
but the two views differ: the export emits a single-column occupied
entry labeled with the department (and no merge region), while the
on-screen grid renders a single-column EMPTY cell offering the slot for
a new booking. -/
theorem span_rule_grid_and_export (ts : List String) (bs : List Booking)
    (r fuel i : Nat) (bk : Booking) (hn : ts.Nodup) (hi : i < ts.dropLast.length)
    (hfind : bs.find? (fun b => b.time == ts.getD i "") = some bk) :
    jsIndexOf ts bk.time = (i : Int) ∧
    ((i : Int) < jsIndexOf ts bk.endTime →
      layoutAux ts bs (fuel + 1) i =
        Cell.occupied bk.id bk.department
            (jsIndexOf ts bk.endTime - jsIndexOf ts bk.time).toNat ::
          layoutAux ts bs fuel
            (i + (jsIndexOf ts bk.endTime - jsIndexOf ts bk.time).toNat) ∧
      (exportDayAux ts bs r (fuel + 1) i).1 =
        some bk.department ::
          (List.replicate
              ((jsIndexOf ts bk.endTime - jsIndexOf ts bk.time).toNat - 1) none ++
            (exportDayAux ts bs r fuel
              (i + (jsIndexOf ts bk.endTime - jsIndexOf ts bk.time).toNat)).1)) ∧
    (¬ (i : Int) < jsIndexOf ts bk.endTime →
      layoutAux ts bs (fuel + 1) i =
        Cell.empty (ts.getD i "") :: layoutAux ts bs fuel (i + 1) ∧
      (exportDayAux ts bs r (fuel + 1) i).1 =
        some bk.department :: (exportDayAux ts bs r fuel (i + 1)).1 ∧
      (exportDayAux ts bs r (fuel + 1) i).2 = (exportDayAux ts bs r fuel (i + 1)).2) := by
  have hil : i < ts.length := by
    have := List.length_dropLast ts
    omega
  have hsidx : jsIndexOf ts bk.time = (i : Int) :=
    jsIndexOf_time_of_found ts bs i bk hn hil hfind
  refine ⟨hsidx, fun hlt => ?_, fun hlt => ?_⟩
  · constructor
    · rw [layoutAux_succ_some ts bs fuel i bk hi hfind, if_pos hlt, hsidx]
    · rw [exportDayAux_succ_some ts bs r fuel i bk hi hfind]
      rw [hsidx]
      rw [if_pos hlt]
  · constructor
    · rw [layoutAux_succ_some ts bs fuel i bk hi hfind, if_neg hlt]
    · rw [exportDayAux_succ_some ts bs r fuel i bk hi hfind]
      rw [hsidx]
      rw [if_neg hlt]
      refine ⟨by simp, by simp⟩

/-- Witness for C3's amended theorem: the degenerate 10:00-10:00 booking
sits at column 3 of the app's slot list; the grid emits an empty cell
there and the export emits the department. -/
theorem span_rule_grid_and_export_witness :
    layoutAux timeSlots
        [(⟨"d1", .alWaha, "2026-10-10", "10:00", "10:00", "Dept", ""⟩ : Booking)] 8 3 =
      Cell.empty (timeSlots.getD 3 "") ::
        layoutAux timeSlots
          [(⟨"d1", .alWaha, "2026-10-10", "10:00", "10:00", "Dept", ""⟩ : Booking)] 7 4 ∧
    (exportDayAux timeSlots
        [(⟨"d1", .alWaha, "2026-10-10", "10:00", "10:00", "Dept", ""⟩ : Booking)] 4 8 3).1 =
      some "Dept" ::
        (exportDayAux timeSlots
          [(⟨"d1", .alWaha, "2026-10-10", "10:00", "10:00", "Dept", ""⟩ : Booking)] 4 7 4).1 ∧
    (exportDayAux timeSlots
        [(⟨"d1", .alWaha, "2026-10-10", "10:00", "10:00", "Dept", ""⟩ : Booking)] 4 8 3).2 =
      (exportDayAux timeSlots
        [(⟨"d1", .alWaha, "2026-10-10", "10:00", "10:00", "Dept", ""⟩ : Booking)] 4 7 4).2 :=
  ((span_rule_grid_and_export timeSlots
      [(⟨"d1", .alWaha, "2026-10-10", "10:00", "10:00", "Dept", ""⟩ : Booking)]
      4 7 3
      ⟨"d1", .alWaha, "2026-10-10", "10:00", "10:00", "Dept", ""⟩
      (by decide) (by decide) (by decide)).2.2 (by decide))

lemma exportDayAux_refines_layout (ts : List String) (bs : List Booking) (r : Nat)
    (hn : ts.Nodup)
    (hv : ∀ b ∈ bs, jsIndexOf ts b.time < jsIndexOf ts b.endTime) :
    ∀ fuel i, exportDayAux ts bs r fuel i =
      (valuesOfLayout (layoutAux ts bs fuel i),
       mergesOfLayout r i (layoutAux ts bs fuel i)) := by
  intro fuel
  induction fuel with
  | zero => intro i; rfl
  | succ fuel ih =>
    intro i
    by_cases hi : i < ts.dropLast.length
    · cases hfind : bs.find? (fun b => b.time == ts.getD i "") with
      | none =>
        rw [layoutAux_succ_none ts bs fuel i hi hfind,
          exportDayAux_succ_none ts bs r fuel i hi hfind, ih (i + 1)]
        simp only [valuesOfLayout, mergesOfLayout]
      | some bk =>
        have hil : i < ts.length := by
          have := List.length_dropLast ts
          omega
        have hsidx : jsIndexOf ts bk.time = (i : Int) :=
          jsIndexOf_time_of_found ts bs i bk hn hil hfind
        have hlt : (i : Int) < jsIndexOf ts bk.endTime := by
          have := hv bk (List.mem_of_find?_eq_some hfind)
          rw [hsidx] at this
          exact this
        rw [layoutAux_succ_some ts bs fuel i bk hi hfind,
          exportDayAux_succ_some ts bs r fuel i bk hi hfind, hsidx]
        simp only [if_pos hlt]
        rw [ih (i + (jsIndexOf ts bk.endTime - (i : Int)).toNat)]
        simp only [valuesOfLayout, mergesOfLayout]
    · rw [layoutAux_stop ts bs (fuel + 1) i hi, exportDayAux_stop ts bs r (fuel + 1) i hi]
      rfl

/-- Claim C4: the export re-derives the grid's per-day placement: over a
duplicate-free slot sequence and bookings whose end index strictly
exceeds their start index (the store invariant the form validation
maintains), the export's data cells are exactly the laid-out cells
rendered as values (department at each occupied cell's start, empty
placeholders filling the interior of each merged span, empty strings on
free columns), and its merge regions are exactly one region per occupied
cell of span above one, covering that cell's columns on the day's row. -/
theorem export_matches_grid_placement (ts : List String) (bs : List Booking) (r : Nat)
    (hn : ts.Nodup)
    (hv : ∀ b ∈ bs, jsIndexOf ts b.time < jsIndexOf ts b.endTime) :
    exportDayRow ts bs r =
      (valuesOfLayout (layoutDay ts bs), mergesOfLayout r 0 (layoutDay ts bs)) := by
  unfold exportDayRow layoutDay
  exact exportDayAux_refines_layout ts bs r hn hv ts.dropLast.length 0

/-- Witness for C4: the app's slot list with one valid two-hour booking. -/
theorem export_matches_grid_placement_witness :
    exportDayRow timeSlots
        [(⟨"1", .alWaha, "2026-10-10", "09:00", "11:00", "HR", "n"⟩ : Booking)] 4 =
      (valuesOfLayout (layoutDay timeSlots
          [(⟨"1", .alWaha, "2026-10-10", "09:00", "11:00", "HR", "n"⟩ : Booking)]),
       mergesOfLayout 4 0 (layoutDay timeSlots
          [(⟨"1", .alWaha, "2026-10-10", "09:00", "11:00", "HR", "n"⟩ : Booking)])) :=
  export_matches_grid_placement timeSlots
    [(⟨"1", .alWaha, "2026-10-10", "09:00", "11:00", "HR", "n"⟩ : Booking)] 4
    (by decide) (by decide)

/-- Witness for C9: a fresh-timestamp creation over a one-record store
keeps the ids duplicate-free. -/
theorem ids_unique_under_fresh_clock_witness :
    (([(⟨"1", .alWaha, "2026-10-10", "09:00", "10:00", "HR", ""⟩ : Booking)] ++
        [newBookingOf ⟨"2026-10-11", "09:00", "10:00", "IT", ""⟩ "T9" .alWaha]).map
      Booking.id).Nodup :=
  (ids_unique_under_fresh_clock
    [⟨"1", .alWaha, "2026-10-10", "09:00", "10:00", "HR", ""⟩] (by decide)).1
    .alWaha ⟨"2026-10-11", "09:00", "10:00", "IT", ""⟩ "T9"
    ([⟨"1", .alWaha, "2026-10-10", "09:00", "10:00", "HR", ""⟩] ++
      [newBookingOf ⟨"2026-10-11", "09:00", "10:00", "IT", ""⟩ "T9" .alWaha])
    (by decide) (by rfl)

end HallBooking
